import Mathlib

/-!
Verification development for the tinyglobby pattern-guided crawl planner.

The embedding covers the current sources of the repository:
`src/utils.ts` (getPartialMatcher, buildFormat, buildRelative, splitPattern,
escapePath, isDynamicPattern), `src/patterns.ts` (normalizePattern,
processPatterns), `src/crawler.ts` (buildCrawler) and `src/index.ts`
(getCrawler, glob/globSync entry points).

External collaborators (the picomatch glob compiler, the node:path module
and the fdir walker) are not part of the repository; they are modelled from
the specification's description of their interfaces, restricted to the
brace/extglob-free pattern fragment (segments are literals, `*` or `**`)
and to ASCII posix paths.  Each such model carries a doc comment saying so.
-/

/-! ## Character-level string primitives (model of JavaScript string ops) -/

/-- Model of JavaScript `input.split('/')` at the character-list level.
`[]` splits to `[[]]`, matching `''.split('/') === ['']`. -/
def splitOnSlash : List Char → List (List Char)
  | [] => [[]]
  | c :: rest =>
    if c = '/' then [] :: splitOnSlash rest
    else
      match splitOnSlash rest with
      | s :: ss => (c :: s) :: ss
      | [] => [[c]]

/-- Joins character-list segments with `'/'`, the inverse of `splitOnSlash`
on slash-free nonempty segment lists. -/
def joinChars : List (List Char) → List Char
  | [] => []
  | [x] => x
  | x :: xs => x ++ '/' :: joinChars xs

/-- Model of JavaScript `s.split('/')` on Lean strings. -/
def splitPath (s : String) : List String :=
  (splitOnSlash s.data).map (fun l => ⟨l⟩)

/-- Model of JavaScript `segments.join('/')` on Lean strings. -/
def joinSegs (l : List String) : String :=
  ⟨joinChars (l.map String.data)⟩

/-- Model of JavaScript `s[i]` character indexing (out of range gives
`undefined`, modelled as `none`). -/
def jsCharAt (s : String) (i : Nat) : Option Char :=
  s.data.get? i

/-- Model of JavaScript `s[s.length - 1]`. -/
def jsLastChar (s : String) : Option Char :=
  s.data.getLast?

/-- Model of JavaScript `s.slice(a)` for a nonnegative index. -/
def jsSliceFrom (s : String) (a : Nat) : String :=
  ⟨s.data.drop a⟩

/-- Model of JavaScript `s.slice(a, b)` for nonnegative indices. -/
def jsSlice (s : String) (a b : Nat) : String :=
  ⟨(s.data.take b).drop a⟩

/-- Model of JavaScript `s.slice(0, -1)` (drop the last character). -/
def jsDropLast (s : String) : String :=
  ⟨s.data.dropLast⟩

/-- Model of JavaScript `s.startsWith(t)`. -/
def jsStartsWith (s t : String) : Bool :=
  t.data.isPrefixOf s.data

/-- Model of JavaScript `s.endsWith('/')`. -/
def endsSlash (s : String) : Bool :=
  s.data.getLast? = some '/'

/-- Model of JavaScript `s.length` (identical to the character count on the
ASCII fragment of the model). -/
def jsLength (s : String) : Nat :=
  s.data.length

/-- Model of `s.replace(BACKSLASHES, '')` with `BACKSLASHES = /\\/g`
(removes every backslash), used on the inferred root
(src/crawler.ts line 18, src/index.ts line 361). -/
def removeBackslashes (s : String) : String :=
  ⟨s.data.filter (fun c => c ≠ '\\')⟩

/-! ## Model of the external glob compiler (picomatch)

Modelled from the spec: the glob compiler is an external collaborator
(spec §1, §6).  The model covers the brace/extglob-free fragment where each
pattern segment is a literal, `*` or `**`.  Per-segment semantics follow the
spec's option descriptions and the repository's own comment in
src/utils.ts lines 62-64: the compiled `**` (and `*`) segment matcher
rejects `.`, `..`, the empty segment, and leading-dot segments unless the
dot option is enabled.  Case-insensitive matching (`nocase`) is not
modelled; it is orthogonal to the claims under study. -/

/-- One segment of a pattern in the modelled fragment: a literal string,
a single `*` wildcard, or a `**` globstar. -/
inductive Seg where
  | lit (s : String)
  | star
  | globstar
deriving Repr, DecidableEq

/-- Options threaded to the modelled compiler, mirroring
`PartialMatcherOptions` / the picomatch options built in src/crawler.ts
lines 20-27 (`dot`, `noglobstar`; `nocase` not modelled). -/
structure MatchOptions where
  dot : Bool
  noglobstar : Bool
deriving Repr, DecidableEq

/-- Whether a segment string starts with a dot. -/
def isDotFirst (s : String) : Bool :=
  s.data.head? = some '.'

/-- Modelled from the spec: semantics of the compiled single-segment
matcher for `*` (and for `**` against one segment).  Rejects the empty
segment, `.`, `..`, and leading-dot segments unless `dot` is enabled
(src/utils.ts lines 62-64 document this for `**`). -/
def starLikeMatch (o : MatchOptions) (s : String) : Bool :=
  s ≠ "" && s ≠ "." && s ≠ ".." && (o.dot || !isDotFirst s)

/-- Modelled from the spec: the compiled single-segment matcher
(`compileSegment(segment, opts)` in spec §1). -/
def segMatch (o : MatchOptions) : Seg → String → Bool
  | .lit t, s => t = s
  | .star, s => starLikeMatch o s
  | .globstar, s => starLikeMatch o s

/-- Whether the raw text of a pattern segment contains a slash
(models `part.includes('/')` in src/utils.ts line 52; only literal
segments can carry one, e.g. opaque brace fragments). -/
def segHasSlash : Seg → Bool
  | .lit t => t.data.contains '/'
  | .star => false
  | .globstar => false

/-- Helper for the zero-or-more-segments semantics of `**`: tries to match
the rest of the pattern after consuming any number of leading segments,
each of which must pass the `**` segment matcher. -/
def globstarAux (restMatch : List String → Bool) (segOk : String → Bool) :
    List String → Bool
  | [] => restMatch []
  | s :: ss => restMatch (s :: ss) || (segOk s && globstarAux restMatch segOk ss)

/-- Modelled from the spec: the full-path matcher the external compiler
builds for one pattern (spec glossary: `**` "matching zero or more path
segments recursively"; with `noglobstar` a `**` degrades to a single-segment
`*`). -/
def globMatch (o : MatchOptions) : List Seg → List String → Bool
  | [], ss => ss.isEmpty
  | .globstar :: ps, ss =>
    if o.noglobstar then
      match ss with
      | [] => false
      | s :: ss' => segMatch o .globstar s && globMatch o ps ss'
    else
      globstarAux (fun t => globMatch o ps t) (segMatch o .globstar) ss
  | .lit t :: ps, ss =>
    (match ss with
     | [] => false
     | s :: ss' => segMatch o (.lit t) s && globMatch o ps ss')
  | .star :: ps, ss =>
    (match ss with
     | [] => false
     | s :: ss' => segMatch o .star s && globMatch o ps ss')

/-- Modelled from the spec (§4.4): the matcher compiled from the whole
normalized match-pattern list with the normalized ignore-pattern list as
its exclusion set, i.e. `picomatch(processed.match, { ignore:
processed.ignore })` in src/crawler.ts line 44.  Patterns are represented
post-`splitPattern` as segment lists. -/
def fullMatcherModel (matchPats ignorePats : List (List Seg))
    (o : MatchOptions) (p : String) : Bool :=
  matchPats.any (fun pat => globMatch o pat (splitPath p)) &&
    !(ignorePats.any (fun pat => globMatch o pat (splitPath p)))

/-! ## getPartialMatcher (src/utils.ts lines 11-78) -/

/-- Recognizer for zero or more blocks, each `..` or `/..`; the block
alternatives start with distinct characters, so the regex
`(\/?\.\.)+` is deterministic and this recursion models it exactly. -/
def opdBlocks : List Char → Bool
  | [] => true
  | '/' :: '.' :: '.' :: rest => opdBlocks rest
  | '.' :: '.' :: rest => opdBlocks rest
  | _ => false

/-- Model of `ONLY_PARENT_DIRECTORIES = /^(\/?\.\.)+$/` from
src/utils.ts line 11: a nonempty string made of one or more `..` or `/..`
blocks. -/
def onlyParentDirectories (s : String) : Bool :=
  s ≠ "" && opdBlocks s.data

/-- The per-pattern inner loop of the partial matcher returned by
`getPartialMatcher` (src/utils.ts lines 45-73): walks pattern segments and
candidate segments in lockstep; a slash-bearing segment is an automatic
pass; a failed segment match abandons the pattern; a matched `**` segment
(with globstar enabled) is an immediate pass; consuming the entire
candidate (`j === inputPatternCount`) is a pass. -/
def patternWalk (o : MatchOptions) : List Seg → List String → Bool
  | _, [] => true
  | [], _ :: _ => false
  | p :: ps, s :: ss =>
    if segHasSlash p then true
    else if segMatch o p s then
      if !o.noglobstar && p = Seg.globstar then true
      else patternWalk o ps ss
    else false

/-- Embedding of `getPartialMatcher(patterns, options)` from
src/utils.ts lines 14-78, with patterns represented post-`splitPattern` as
segment lists.  The source returns `true` for the whole call from inside
the per-pattern loop for slash segments and matched `**` segments; since
`true` short-circuits the disjunction over patterns, the result equals the
disjunction of `patternWalk` over the pattern list. -/
def getPartialMatcherModel (pats : List (List Seg)) (o : MatchOptions)
    (input : String) : Bool :=
  let inputParts := splitPath input
  if inputParts.headD "" = ".." && onlyParentDirectories input then true
  else pats.any (fun pat => patternWalk o pat inputParts)

/-! ## Model of the external node:path posix functions

Modelled from the spec: `node:path` is a platform library outside the
repository.  The models below implement the documented posix behavior on
the fragment the planner uses (ASCII, forward slashes; `posix.relative` is
only ever called with absolute arguments). -/

/-- Model of `posix.isAbsolute` (and of `isAbsolute` imported in
src/patterns.ts line 1 on posix). -/
def isAbsoluteModel (s : String) : Bool :=
  s.data.head? = some '/'

/-- One step of `..`-resolution for `posix.normalize`; the accumulator is
kept reversed. -/
def normStep (isAbs : Bool) (acc : List String) (seg : String) : List String :=
  if seg = ".." then
    match acc with
    | [] => if isAbs then [] else [".."]
    | top :: rest => if top = ".." then seg :: acc else rest
  else seg :: acc

/-- Model of `posix.normalize`: drops empty and `.` segments, resolves `..`
lexically (keeping leading `..` on relative paths, dropping it at the root
of absolute ones), preserves a leading and a meaningful trailing slash. -/
def posixNormalize (s : String) : String :=
  if s = "" then "."
  else
    let isAbs := isAbsoluteModel s
    let segs := (splitPath s).filter (fun x => x ≠ "" && x ≠ ".")
    let core := (segs.foldl (normStep isAbs) []).reverse
    let base := (if isAbs then "/" else "") ++ joinSegs core
    let base := if base = "" then "." else base
    if endsSlash s && core ≠ [] && !endsSlash base then base ++ "/" else base

/-- Model of `posix.join`: concatenates the non-empty parts with `/` and
normalizes; an all-empty input gives `.`. -/
def posixJoin (parts : List String) : String :=
  let s := joinSegs (parts.filter (fun x => x ≠ ""))
  if s = "" then "." else posixNormalize s

/-- Splits an absolute path into its nonempty normalized segments,
for `posix.relative`. -/
def absSegments (s : String) : List String :=
  (splitPath (posixNormalize s)).filter (fun x => x ≠ "")

/-- Length of the longest common segment run of two lists. -/
def commonPrefixLen : List String → List String → Nat
  | a :: as, b :: bs => if a = b then commonPrefixLen as bs + 1 else 0
  | _, _ => 0

/-- Model of `posix.relative` for absolute `from`/`to` arguments (the only
way the planner calls it): strip the common segment run, then one `..` per
remaining `from` segment followed by the remaining `to` segments. -/
def posixRelative (f t : String) : String :=
  let fs := absSegments f
  let ts := absSegments t
  let k := commonPrefixLen fs ts
  joinSegs (List.replicate (fs.length - k) ".." ++ ts.drop k)

/-! ## src/utils.ts helpers used by the normalizer -/

/-- Characters escaped by `POSIX_UNESCAPED_GLOB_SYMBOLS` when standing
alone (src/utils.ts line 171). -/
def posixGlobSymbol (c : Char) : Bool :=
  c = '(' || c = ')' || c = '[' || c = ']' || c = '{' || c = '}' ||
  c = '*' || c = '?' || c = '|'

/-- Characters that may not follow a backslash for the backslash itself to
be escaped (the set in `\\(?![()[\]{}!*+?@|])`). -/
def posixEscapableAfterBackslash (c : Char) : Bool :=
  c = '(' || c = ')' || c = '[' || c = ']' || c = '{' || c = '}' ||
  c = '!' || c = '*' || c = '+' || c = '?' || c = '@' || c = '|'

/-- Recursive worker for `escapePosixPath`: `atStart` tracks position 0
(for the `^!` alternative), `prevBS` tracks whether the previous input
character was a backslash (the `(?<!\\)` lookbehind). -/
def escapePosixChars (atStart prevBS : Bool) : List Char → List Char
  | [] => []
  | c :: rest =>
    let nextIsParen := rest.head? = some '('
    let loneBackslash := c = '\\' &&
      !(match rest.head? with
        | some d => posixEscapableAfterBackslash d
        | none => false)
    let isMatch := !prevBS &&
      (posixGlobSymbol c || (c = '!' && atStart) ||
        ((c = '!' || c = '+' || c = '@') && nextIsParen) || loneBackslash)
    if isMatch then '\\' :: c :: escapePosixChars false (c = '\\') rest
    else c :: escapePosixChars false (c = '\\') rest

/-- Embedding of `escapePosixPath` from src/utils.ts line 174 (the posix
branch of `escapePath`): prefixes every unescaped glob symbol with a
backslash. -/
def escapePosixPath (s : String) : String :=
  ⟨escapePosixChars true false s.data⟩

/-- Character-list worker for `stripEscapingBackslashes`. -/
def stripEscAux : List Char → List Char
  | [] => []
  | '\\' :: c :: rest =>
    if posixEscapableAfterBackslash c then c :: stripEscAux rest
    else '\\' :: stripEscAux (c :: rest)
  | c :: rest => c :: stripEscAux rest

/-- Model of `result.replace(ESCAPING_BACKSLASHES, '')` with
`ESCAPING_BACKSLASHES = /\\(?=[()[\]{}!*+?@|])/g` (src/patterns.ts line 6):
removes a backslash standing before a glob symbol. -/
def stripEscapingBackslashes (s : String) : String :=
  ⟨stripEscAux s.data⟩

/-- Modelled from the spec: `isDynamicPattern` (src/utils.ts lines 198-205)
delegates to the external `picomatch.scan`; on the backslash-free fragment
a pattern is dynamic iff it contains glob syntax characters or is negated
(the call in src/patterns.ts line 61 passes no options, so the
`caseSensitiveMatch` short-circuit never fires there). -/
def isDynamicPatternModel (s : String) : Bool :=
  s.data.any (fun c =>
    c = '*' || c = '?' || c = '(' || c = ')' || c = '[' || c = ']' ||
    c = '{' || c = '}' || c = '+' || c = '@' || c = '|') ||
  jsCharAt s 0 = some '!'

/-- Embedding of `splitPattern` (src/utils.ts lines 136-139): on the
brace/extglob-free fragment `picomatch.scan(path, { parts: true }).parts`
is the plain slash split, and the `[path]` fallback for slashless patterns
coincides with it. -/
def splitPatternModel (s : String) : List String :=
  splitPath s

/-- Model of `PARENT_DIRECTORY = /^(\/?\.\.)+/` (src/patterns.ts line 5):
the maximal matched prefix.  The two block alternatives start with distinct
characters, so greedy matching is deterministic. -/
def leadingParentDirChars : List Char → List Char
  | '/' :: '.' :: '.' :: rest => '/' :: '.' :: '.' :: leadingParentDirChars rest
  | '.' :: '.' :: rest => '.' :: '.' :: leadingParentDirChars rest
  | _ => []

/-- The `parentDirectoryMatch?.[0]` prefix of src/patterns.ts line 25 as a
string (empty when the regex does not match). -/
def leadingParentDir (s : String) : String :=
  ⟨leadingParentDirChars s.data⟩

/-! ## src/patterns.ts : normalizePattern and processPatterns -/

/-- `InternalProps` from src/types.ts: the mutable crawl properties
threaded through normalization. -/
structure InternalProps where
  root : String
  commonPath : Option (List String)
  depthOffset : Int
deriving Repr, DecidableEq

/-- `ProcessedPatterns` from src/types.ts (fields `match`/`ignore`; `match`
is a Lean keyword, hence the `List` suffix). -/
structure ProcessedPatterns where
  matchList : List String
  ignoreList : List String
deriving Repr, DecidableEq

/-- JavaScript array indexing with a possibly negative index
(out of range or negative gives `undefined`, modelled as `none`). -/
def jsIndex (l : List String) (i : Int) : Option String :=
  if i < 0 then none else l.get? i.toNat

/-- The `../`-collapse loop of src/patterns.ts lines 33-36: while `i < n`
and the pattern part mirrors the trailing cwd segment, splice that pair out
of `result`.  The fuel starts at `n` so the guard `i < n` is exact; the JS
condition compares with `===`, so two `undefined` sides also pass (the
source would then throw on `.length`; that state is outside the modelled
domain and never reached by a terminating run). -/
def collapseAux (parts cwdParts : List String) (n : Nat) :
    Nat → String → Nat → String × Nat
  | 0, result, i => (result, i)
  | fuel + 1, result, i =>
    if jsIndex parts ((i : Int) + n) =
        jsIndex cwdParts ((cwdParts.length : Int) + i - n) then
      let partLen := jsLength ((jsIndex parts ((i : Int) + n)).getD "")
      let headStr := jsSlice result 0 ((n - i - 1) * 3)
      let tailStr := jsSliceFrom result ((n - i) * 3 + partLen + 1)
      let tailStr := if tailStr = "" then "." else tailStr
      collapseAux parts cwdParts n fuel (headStr ++ tailStr) (i + 1)
    else (result, i)

/-- The common-path truncation loop of src/patterns.ts lines 53-64 exactly
as written in the current source: it pops on a trailing bare `**` and
breaks on the last / mismatched / dynamic segment, but never appends a
segment to `newCommonPath` (there is no `push`; compare
`commonPathLoopIndexTs` below).  `!parts[i + 1]` is falsy both for a
missing and for an empty next part, hence the `getD ""`. -/
def commonPathLoopCurrent (commonPath parts : List String) :
    Nat → Nat → List String → List String
  | 0, _, acc => acc
  | fuel + 1, i, acc =>
    let part := parts.getD i ""
    if part = "**" ∧ parts.getD (i + 1) "" = "" then acc.dropLast
    else if i = parts.length - 1 ∨ part ≠ commonPath.getD i "" ∨
        isDynamicPatternModel part = true then acc
    else commonPathLoopCurrent commonPath parts fuel (i + 1) acc

/-- The loop of src/patterns.ts lines 50-64 with its
`length = Math.min(...)` bound and empty initial accumulator. -/
def newCommonPathCurrent (commonPath parts : List String) : List String :=
  commonPathLoopCurrent commonPath parts (min commonPath.length parts.length) 0 []

/-- The same loop as previously shipped in src/index.ts lines 179-195 (and
in every other bundled revision of the file): identical break conditions,
but each surviving segment is appended (`newCommonPath.push(part)`). -/
def commonPathLoopIndexTs (commonPath parts : List String) :
    Nat → Nat → List String → List String
  | 0, _, acc => acc
  | fuel + 1, i, acc =>
    let part := parts.getD i ""
    if part = "**" ∧ parts.getD (i + 1) "" = "" then acc.dropLast
    else if part ≠ commonPath.getD i "" ∨ isDynamicPatternModel part = true ∨
        i = parts.length - 1 then acc
    else commonPathLoopIndexTs commonPath parts fuel (i + 1) (acc ++ [part])

/-- Entry point for the src/index.ts variant of the common-path loop. -/
def newCommonPathIndexTs (commonPath parts : List String) : List String :=
  commonPathLoopIndexTs commonPath parts (min commonPath.length parts.length) 0 []

/-- Embedding of `normalizePattern` from src/patterns.ts lines 8-73.  The
source signature takes the options record but only reads `cwd` and
`expandDirectories`, so the embedding takes those two directly.  Note that
`parts` is computed before the `../`-collapse rewrites `result` (line 26 of
the source), and that the parent-directory block and the common-path block
are two consecutive `if`s, not an `if`/`else`. -/
def normalizePatternModel (pattern : String) (cwd : String)
    (expandDirectories : Bool) (props : InternalProps) (isIgnore : Bool) :
    String × InternalProps :=
  let result := if jsLastChar pattern = some '/' then jsDropLast pattern else pattern
  let result :=
    if jsLastChar result ≠ some '*' ∧ expandDirectories = true then result ++ "/**"
    else result
  let escapedCwd := escapePosixPath cwd
  let result :=
    if isAbsoluteModel (stripEscapingBackslashes result) = true then
      posixRelative escapedCwd result
    else posixNormalize result
  let parentDir := leadingParentDir result
  let parts := splitPatternModel result
  let step1 : String × InternalProps :=
    if parentDir ≠ "" then
      let n := (jsLength parentDir + 1) / 3
      let cwdParts := splitPath escapedCwd
      let ri := collapseAux parts cwdParts n n result 0
      let potentialRoot := posixJoin [cwd, jsSliceFrom parentDir (ri.2 * 3)]
      if jsCharAt potentialRoot 0 ≠ some '.' ∧
          jsLength props.root > jsLength potentialRoot then
        (ri.1, { root := potentialRoot, commonPath := props.commonPath,
                 depthOffset := -(n : Int) + ri.2 })
      else (ri.1, props)
    else (result, props)
  let props1 := step1.2
  let props2 :=
    if isIgnore = false ∧ props1.depthOffset ≥ 0 then
      let commonPath := props1.commonPath.getD parts
      let newCommonPath := newCommonPathCurrent commonPath parts
      { root := if newCommonPath.length > 0 then posixJoin (cwd :: newCommonPath)
                else cwd,
        commonPath := some newCommonPath,
        depthOffset := (newCommonPath.length : Int) }
    else props1
  (step1.1, props2)

/-- The ignore-list loop of `processPatterns` (src/patterns.ts lines
83-88): empty and negated (non-extglob) ignore patterns are skipped. -/
def processIgnoreLoop (cwd : String) (expandDirectories : Bool) :
    List String → InternalProps → List String × InternalProps
  | [], props => ([], props)
  | p :: rest, props =>
    if p ≠ "" ∧ (jsCharAt p 0 ≠ some '!' ∨ jsCharAt p 1 = some '(') then
      let r := normalizePatternModel p cwd expandDirectories props true
      let t := processIgnoreLoop cwd expandDirectories rest r.2
      (r.1 :: t.1, t.2)
    else processIgnoreLoop cwd expandDirectories rest props

/-- The match-list loop of `processPatterns` (src/patterns.ts lines
90-98), returning the produced match patterns, the ignore patterns added by
negation, and the final props. -/
def processMatchLoop (cwd : String) (expandDirectories : Bool) :
    List String → InternalProps → List String × List String × InternalProps
  | [], props => ([], [], props)
  | p :: rest, props =>
    if p = "" then processMatchLoop cwd expandDirectories rest props
    else if jsCharAt p 0 ≠ some '!' ∨ jsCharAt p 1 = some '(' then
      let r := normalizePatternModel p cwd expandDirectories props false
      let t := processMatchLoop cwd expandDirectories rest r.2
      (r.1 :: t.1, t.2.1, t.2.2)
    else if jsCharAt p 1 ≠ some '!' ∨ jsCharAt p 2 = some '(' then
      let r := normalizePatternModel (jsSliceFrom p 1) cwd expandDirectories props true
      let t := processMatchLoop cwd expandDirectories rest r.2
      (t.1, r.1 :: t.2.1, t.2.2)
    else processMatchLoop cwd expandDirectories rest props

/-- Embedding of `processPatterns` (src/patterns.ts lines 75-101): the
ignore option list is processed first, then the match patterns, threading
the shared props; both loops append to a single ignore list. -/
def processPatternsModel (cwd : String) (expandDirectories : Bool)
    (ignore patterns : List String) (props : InternalProps) :
    ProcessedPatterns × InternalProps :=
  let ig := processIgnoreLoop cwd expandDirectories ignore props
  let m := processMatchLoop cwd expandDirectories patterns ig.2
  (⟨m.1, ig.1 ++ m.2.1⟩, m.2.2)

/-! ## src/crawler.ts : buildCrawler -/

/-- Model of JavaScript `Math.round` on the rationals: round half toward
positive infinity. -/
def mathRound (q : ℚ) : Int :=
  (q + 1 / 2).floor

/-- The fragment of the resolved options record (`InternalOptions`) the
planner reads. -/
structure PlanOptions where
  cwd : String
  expandDirectories : Bool
  ignore : List String
  deep : Option ℚ
  absolute : Bool
  dot : Bool
deriving Repr, DecidableEq

/-- The data handed to the external fdir walker by `buildCrawler`
(src/crawler.ts lines 36-101): the crawl root, the compiled pattern lists
and the translated depth limit. -/
structure CrawlPlan where
  root : String
  matchList : List String
  ignoreList : List String
  maxDepth : Option Int
deriving Repr, DecidableEq

/-- The fresh per-invocation props of src/crawler.ts line 10. -/
def initialProps (cwd : String) : InternalProps :=
  { root := cwd, commonPath := none, depthOffset := 0 }

/-- Embedding of the planning part of `buildCrawlerInfo`/`buildCrawler`
(src/crawler.ts lines 8-58): process the patterns against fresh props,
strip backslashes from the root, and set `maxDepth` to
`Math.round(options.deep - props.depthOffset)` whenever `deep` was
supplied (`options.deep !== undefined`, line 56 — this includes `deep: 0`).
-/
def buildCrawlerPlan (o : PlanOptions) (patterns : List String) : CrawlPlan :=
  let r := processPatternsModel o.cwd o.expandDirectories o.ignore patterns
    (initialProps o.cwd)
  { root := removeBackslashes r.2.root,
    matchList := r.1.matchList,
    ignoreList := r.1.ignoreList,
    maxDepth := o.deep.map (fun d => mathRound (d - (r.2.depthOffset : ℚ))) }

/-! ## src/utils.ts : buildFormat and buildRelative -/

/-- Model of `isRoot` (src/utils.ts line 84) on posix. -/
def isRootModel (p : String) : Bool :=
  p = "/"

/-- Embedding of `buildFormat` (src/utils.ts lines 89-112): the formatter
used on matcher inputs; directory paths lose their trailing separator
(`isDir ? -1 : undefined` slices) and an empty result degrades to `.`. -/
def buildFormatModel (cwd root : String) (absolute : Bool)
    (p : String) (isDir : Bool) : String :=
  if cwd = root ∨ jsStartsWith root (cwd ++ "/") = true then
    if absolute then
      let start := if isRootModel cwd then jsLength cwd else jsLength cwd + 1
      let r := if isDir then jsDropLast (jsSliceFrom p start) else jsSliceFrom p start
      if r = "" then "." else r
    else
      let pfx := jsSliceFrom root (jsLength cwd + 1)
      if pfx ≠ "" then
        if p = "." then pfx
        else
          let r := pfx ++ "/" ++ p
          if isDir then jsDropLast r else r
      else if isDir ∧ p ≠ "." then jsDropLast p else p
  else if absolute then
    let r := posixRelative cwd p
    if r = "" then "." else r
  else
    let r := posixRelative cwd (root ++ "/" ++ p)
    if r = "" then "." else r

/-- Embedding of `buildRelative` (src/utils.ts lines 115-128): the mapper
applied to walker output when the root differs from the cwd; note that it
preserves a trailing slash (`if (p.endsWith('/') && result !== '')`). -/
def buildRelativeModel (cwd root : String) (p : String) : String :=
  if jsStartsWith root (cwd ++ "/") = true then
    jsSliceFrom root (jsLength cwd + 1) ++ "/" ++ p
  else
    let r := posixRelative cwd (root ++ "/" ++ p)
    if endsSlash p = true ∧ r ≠ "" then r ++ "/"
    else if r = "" then "." else r

/-- The mapper selected by src/crawler.ts line 100:
`cwd !== root && !absolute && buildRelative(cwd, root)`. -/
def relativeMapperModel (cwd root : String) (absolute : Bool) :
    Option (String → String) :=
  if cwd ≠ root ∧ absolute = false then some (buildRelativeModel cwd root)
  else none

/-- Applies an optional mapper to one walker path. -/
def applyMapper (m : Option (String → String)) (p : String) : String :=
  match m with
  | none => p
  | some f => f p

/-- Embedding of `formatPaths` (src/index.ts lines 7-14): maps every
walker path through the relative mapper when one was selected (the source
iterates in reverse over indices, which is an in-place `map`). -/
def formatPathsModel (paths : List String) (m : Option (String → String)) :
    List String :=
  match m with
  | none => paths
  | some f => paths.map f

/-! ## src/index.ts : getCrawler and the entry points -/

/-- The two shapes patterns can be supplied in (`string | string[]`). -/
inductive PatInput where
  | str (s : String)
  | arr (l : List String)
deriving Repr, DecidableEq

/-- The user-facing options record (`GlobOptions`), all fields optional. -/
structure GlobOptionsIn where
  patterns : Option PatInput
  ignore : Option PatInput
  cwd : Option String
  expandDirectories : Option Bool
  deep : Option ℚ
  absolute : Option Bool
  dot : Option Bool
deriving Repr, DecidableEq

/-- The options record with every field absent. -/
def emptyGlobOptions : GlobOptionsIn :=
  ⟨none, none, none, none, none, none, none⟩

/-- `GlobInput`: the first argument of `glob`/`globSync` — either patterns
or (deprecated) the options object. -/
inductive GlobInput where
  | pats (p : PatInput)
  | opts (o : GlobOptionsIn)
deriving Repr, DecidableEq

/-- JavaScript truthiness of a pattern input: the empty string is falsy,
every array (even `[]`) is truthy. -/
def patInputTruthy : PatInput → Bool
  | .str s => s ≠ ""
  | .arr _ => true

/-- JavaScript truthiness of the first argument of `glob` (objects and
arrays are truthy, `''` is falsy). -/
def globInputTruthy : GlobInput → Bool
  | .pats p => patInputTruthy p
  | .opts _ => true

/-- Truthiness of `inputOptions?.patterns`. -/
def optPatternsTruthy : Option PatInput → Bool
  | none => false
  | some p => patInputTruthy p

/-- Modelled from the spec: `ensureStringArray` (imported by src/index.ts
from utils; its body is not in the snapshot) wraps a lone string into a
one-element array and passes arrays through, per its name and call sites. -/
def ensureStringArray : PatInput → List String
  | .str s => [s]
  | .arr l => l

/-- Model of `path.resolve(...)` for an already-absolute posix argument
(the modelled domain): lexical normalization without a trailing slash. -/
def resolveAbs (s : String) : String :=
  let r := posixNormalize s
  if r ≠ "/" ∧ endsSlash r = true then jsDropLast r else r

/-- Embedding of `getOptions` (src/options.ts lines 19-41) restricted to
the fields the planner reads: defaults merged under the user options,
`ignore` defaulted to `[]` and coerced to an array, `cwd` resolved
(`procCwd` stands for `process.cwd()`). -/
def getOptionsModel (procCwd : String) (o : GlobOptionsIn) : PlanOptions :=
  { cwd := resolveAbs (o.cwd.getD procCwd),
    expandDirectories := o.expandDirectories.getD true,
    ignore := match o.ignore with
      | none => []
      | some p => ensureStringArray p,
    deep := o.deep,
    absolute := o.absolute.getD false,
    dot := o.dot.getD false }

/-- Outcome of `getCrawler`: the `[]` early return (no walk at all) or a
built crawler plan together with the pattern list in use. -/
inductive CrawlerResult where
  | empty
  | plan (pl : CrawlPlan) (patterns : List String)
deriving Repr, DecidableEq

/-- Embedding of `getCrawler` (src/index.ts lines 16-35): the conflicting
pattern-sources guard, the modern/legacy dispatch, the `?? '**/*'` default,
the `[]` early return, and the crawler construction. -/
def getCrawlerModel (procCwd : String) (globInput : GlobInput)
    (inputOptions : Option GlobOptionsIn) : Except String CrawlerResult :=
  if globInputTruthy globInput = true ∧
      optPatternsTruthy (inputOptions.bind (fun io => io.patterns)) = true then
    .error "Cannot pass patterns as both an argument and an option"
  else
    let isModern := match globInput with
      | .pats _ => true
      | .opts _ => false
    let raw : Option PatInput := match globInput with
      | .pats p => some p
      | .opts o => o.patterns
    let patterns := ensureStringArray (raw.getD (.str "**/*"))
    let baseOpts : Option GlobOptionsIn :=
      if isModern then inputOptions
      else match globInput with
        | .opts o => some o
        | .pats _ => none
    let options := getOptionsModel procCwd (baseOpts.getD emptyGlobOptions)
    if patterns.length = 0 then .ok .empty
    else .ok (.plan (buildCrawlerPlan options patterns) patterns)

/-! ## Auxiliary constructions used by the claim statements -/

/-- Characters of `n + 1` chained `..` segments: `..`, `../..`, ... -/
def parentChainChars : Nat → List Char
  | 0 => ['.', '.']
  | n + 1 => '.' :: '.' :: '/' :: parentChainChars n

/-- The path consisting of `n + 1` chained `..` segments. -/
def parentChain (n : Nat) : String :=
  ⟨parentChainChars n⟩

/-! ## Classification of the match-pattern loop (for C4) -/

/-- Where one entry of the patterns array ends up. -/
inductive PatternRoute where
  | toMatch
  | toIgnore
  | dropped
deriving Repr, DecidableEq

/-- The routing rule in the amended claim's words: empty patterns are
skipped; a pattern not starting with `!` (or starting with the extglob
opener `!(`) is a match pattern; `!!p` with `p` not starting with `(` is
dropped entirely; any other `!p` goes to the ignore list. -/
def routeOf (p : String) : PatternRoute :=
  if p = "" then .dropped
  else if jsCharAt p 0 ≠ some '!' ∨ jsCharAt p 1 = some '(' then .toMatch
  else if jsCharAt p 1 = some '!' ∧ jsCharAt p 2 ≠ some '(' then .dropped
  else .toIgnore

/-- The match-pattern loop restated by routing: structurally the claim's
description of `processPatterns`, to be proven equal to the source
embedding `processMatchLoop`. -/
def routedProcessLoop (cwd : String) (expandDirectories : Bool) :
    List String → InternalProps → List String × List String × InternalProps
  | [], props => ([], [], props)
  | p :: rest, props =>
    match routeOf p with
    | .dropped => routedProcessLoop cwd expandDirectories rest props
    | .toMatch =>
      let r := normalizePatternModel p cwd expandDirectories props false
      let t := routedProcessLoop cwd expandDirectories rest r.2
      (r.1 :: t.1, t.2.1, t.2.2)
    | .toIgnore =>
      let r := normalizePatternModel (jsSliceFrom p 1) cwd expandDirectories props true
      let t := routedProcessLoop cwd expandDirectories rest r.2
      (t.1, r.1 :: t.2.1, t.2.2)

/-! ### Inversion lemmas for split/join -/

theorem splitOnSlash_ne_nil (l : List Char) : splitOnSlash l ≠ [] := by
  induction l with
  | nil => simp [splitOnSlash]
  | cons c rest ih =>
    simp only [splitOnSlash]
    split
    · simp
    · rcases hs : splitOnSlash rest with _ | ⟨s, ss⟩ <;> simp [hs]

theorem mem_splitOnSlash_no_slash (l : List Char) :
    ∀ seg ∈ splitOnSlash l, '/' ∉ seg := by
  induction l with
  | nil => intro seg h; simp [splitOnSlash] at h; simp [h]
  | cons c rest ih =>
    intro seg h
    by_cases hc : c = '/'
    · subst hc
      simp only [splitOnSlash, if_pos rfl] at h
      rcases List.mem_cons.mp h with h1 | h1
      · simp [h1]
      · exact ih seg h1
    · rcases hs : splitOnSlash rest with _ | ⟨s, ss⟩
      · exact absurd hs (splitOnSlash_ne_nil rest)
      · simp only [splitOnSlash, if_neg hc, hs] at h
        rcases List.mem_cons.mp h with h1 | h1
        · subst h1
          intro hmem
          rcases List.mem_cons.mp hmem with h2 | h2
          · exact hc h2.symm
          · exact ih s (hs ▸ List.mem_cons_self s ss) h2
        · exact ih seg (hs ▸ List.mem_cons_of_mem s h1)

theorem splitOnSlash_joinChars (segs : List (List Char))
    (hns : ∀ seg ∈ segs, '/' ∉ seg) (hne : segs ≠ []) :
    splitOnSlash (joinChars segs) = segs := by
  induction segs with
  | nil => exact absurd rfl hne
  | cons x xs ih =>
    rcases xs with _ | ⟨y, ys⟩
    · -- single segment: joinChars [x] = x, and x has no slash
      have hx : '/' ∉ x := hns x (List.mem_cons_self x [])
      clear ih hne hns
      induction x with
      | nil => simp [joinChars, splitOnSlash]
      | cons c cs ihc =>
        have hc : c ≠ '/' := by
          intro hc; exact hx (hc ▸ List.mem_cons_self c cs)
        have hcs : '/' ∉ cs := fun h => hx (List.mem_cons_of_mem c h)
        simp only [joinChars] at ihc ⊢
        simp only [splitOnSlash, if_neg hc, ihc hcs]
    · -- at least two segments
      have hx : '/' ∉ x := hns x (List.mem_cons_self x _)
      have hrest : splitOnSlash (joinChars (y :: ys)) = y :: ys :=
        ih (fun seg h => hns seg (List.mem_cons_of_mem x h)) (by simp)
      have hj : joinChars (x :: y :: ys) = x ++ '/' :: joinChars (y :: ys) := rfl
      rw [hj]
      clear ih hns hne hj
      induction x with
      | nil =>
        simp [splitOnSlash, hrest]
      | cons c cs ihc =>
        have hc : c ≠ '/' := by
          intro h; exact hx (h ▸ List.mem_cons_self c cs)
        have hcs : '/' ∉ cs := fun h => hx (List.mem_cons_of_mem c h)
        have hstep := ihc hcs
        simp [splitOnSlash, if_neg hc, hstep]

/-! ## Helper lemmas -/

theorem splitPath_no_slash (s : String) :
    ∀ seg ∈ splitPath s, '/' ∉ seg.data := by
  intro seg h
  obtain ⟨l, hl, rfl⟩ := List.mem_map.mp h
  exact mem_splitOnSlash_no_slash s.data l hl

theorem splitPath_joinSegs (l : List String)
    (h : ∀ seg ∈ l, '/' ∉ seg.data) (hne : l ≠ []) :
    splitPath (joinSegs l) = l := by
  unfold splitPath joinSegs
  have hmap : ∀ m ∈ l.map String.data, '/' ∉ m := by
    intro m hm
    obtain ⟨seg, hseg, rfl⟩ := List.mem_map.mp hm
    exact h seg hseg
  have hne' : l.map String.data ≠ [] := by
    intro habs
    exact hne (List.map_eq_nil_iff.mp habs)
  rw [show (⟨joinChars (l.map String.data)⟩ : String).data
      = joinChars (l.map String.data) from rfl]
  rw [splitOnSlash_joinChars (l.map String.data) hmap hne']
  rw [List.map_map]
  have hid : ((fun m : List Char => (⟨m⟩ : String)) ∘ String.data) = id := by
    funext x
    rfl
  rw [hid, List.map_id]

theorem opdBlocks_slash_parentChain (n : Nat) :
    opdBlocks ('/' :: parentChainChars n) = true := by
  induction n with
  | zero => rfl
  | succ m ih =>
    show opdBlocks ('/' :: '.' :: '.' :: '/' :: parentChainChars m) = true
    rw [show opdBlocks ('/' :: '.' :: '.' :: '/' :: parentChainChars m)
        = opdBlocks ('/' :: parentChainChars m) from rfl]
    exact ih

theorem opdBlocks_parentChain (n : Nat) :
    opdBlocks (parentChainChars n) = true := by
  cases n with
  | zero => rfl
  | succ m =>
    show opdBlocks ('.' :: '.' :: '/' :: parentChainChars m) = true
    rw [show opdBlocks ('.' :: '.' :: '/' :: parentChainChars m)
        = opdBlocks ('/' :: parentChainChars m) from rfl]
    exact opdBlocks_slash_parentChain m

theorem splitOnSlash_parentChain (n : Nat) :
    splitOnSlash (parentChainChars n) = List.replicate (n + 1) ['.', '.'] := by
  induction n with
  | zero => rfl
  | succ m ih =>
    show splitOnSlash ('.' :: '.' :: '/' :: parentChainChars m) = _
    have h1 : splitOnSlash ('/' :: parentChainChars m)
        = [] :: splitOnSlash (parentChainChars m) := by
      simp [splitOnSlash]
    have h2 : splitOnSlash ('.' :: '/' :: parentChainChars m)
        = ['.'] :: splitOnSlash (parentChainChars m) := by
      rw [show splitOnSlash ('.' :: '/' :: parentChainChars m)
          = (match splitOnSlash ('/' :: parentChainChars m) with
             | s :: ss => ('.' :: s) :: ss
             | [] => [['.']]) from by simp [splitOnSlash]]
      rw [h1]
    rw [show splitOnSlash ('.' :: '.' :: '/' :: parentChainChars m)
        = (match splitOnSlash ('.' :: '/' :: parentChainChars m) with
           | s :: ss => ('.' :: s) :: ss
           | [] => [['.']]) from by simp [splitOnSlash]]
    rw [h2, ih]
    rfl

theorem globMatch_nil_iff (o : MatchOptions) (ss : List String) :
    globMatch o [] ss = true ↔ ss = [] := by
  simp [globMatch, List.isEmpty_iff]

theorem patternWalk_sound (o : MatchOptions) :
    ∀ (pat : List Seg) (ss : List String) (k : Nat),
    (∀ s ∈ ss, segMatch o .globstar s = true) →
    globMatch o pat ss = true →
    patternWalk o pat (ss.take k) = true := by
  intro pat
  induction pat with
  | nil =>
    intro ss k hseg hfull
    have hss : ss = [] := (globMatch_nil_iff o ss).mp hfull
    subst hss
    simp [patternWalk]
  | cons p ps ih =>
    intro ss k hseg hfull
    cases k with
    | zero => simp [patternWalk]
    | succ k' =>
      cases ss with
      | nil => simp [patternWalk]
      | cons s ss' =>
        have hseg' : ∀ x ∈ ss', segMatch o .globstar x = true :=
          fun x hx => hseg x (List.mem_cons_of_mem s hx)
        have hsegs : segMatch o Seg.globstar s = true :=
          hseg s (List.mem_cons_self s ss')
        rw [List.take_succ_cons]
        by_cases hsl : segHasSlash p = true
        · simp [patternWalk, hsl]
        · cases p with
          | globstar =>
            by_cases hng : o.noglobstar = true
            · -- `**` degraded to a single-segment wildcard
              simp only [globMatch, if_pos hng] at hfull
              rw [Bool.and_eq_true] at hfull
              obtain ⟨h1, h2⟩ := hfull
              simp [patternWalk, hsl, h1, hng, ih ss' k' hseg' h2]
            · -- a matched globstar is an immediate pass
              have hng' : o.noglobstar = false := by
                cases h : o.noglobstar
                · rfl
                · exact absurd h hng
              simp [patternWalk, hsl, hsegs, hng']
          | lit t =>
            simp only [globMatch] at hfull
            rw [Bool.and_eq_true] at hfull
            obtain ⟨h1, h2⟩ := hfull
            have hrec := ih ss' k' hseg' h2
            simp [patternWalk, hsl, h1, hrec]
          | star =>
            simp only [globMatch] at hfull
            rw [Bool.and_eq_true] at hfull
            obtain ⟨h1, h2⟩ := hfull
            have hrec := ih ss' k' hseg' h2
            simp [patternWalk, hsl, h1, hrec]

/-! ## Claim theorems -/

/-- C5 (confirmed): in the partial matcher's segment walk a `**` pattern
segment yields an immediate `true` for the pattern exactly when the
compiled `**` segment matcher accepts the current candidate segment; the
compiled matcher still rejects `..` (any options) and `.a` with dot
disabled, and a failed `**` match abandons the pattern (shown on the whole
call for pattern `** / b` and input `../a`). -/
theorem c5_globstar_requires_segment_match (o : MatchOptions) (ps : List Seg)
    (s : String) (ss : List String) (h : o.noglobstar = false) :
    patternWalk o (Seg.globstar :: ps) (s :: ss) = segMatch o Seg.globstar s ∧
    segMatch o Seg.globstar ".." = false ∧
    segMatch ⟨false, false⟩ Seg.globstar ".a" = false ∧
    getPartialMatcherModel [[Seg.globstar, Seg.lit "b"]] ⟨false, false⟩
      "../a" = false := by
  refine ⟨?_, ?_, by decide, by decide⟩
  · cases hm : segMatch o Seg.globstar s
    · simp [patternWalk, segHasSlash, hm]
    · simp [patternWalk, segHasSlash, hm, h]
  · have h3 : (decide (¬(".." : String) = "..")) = false := by decide
    simp [segMatch, starLikeMatch, h3]

/-- C5 witness: the theorem applied at globstar-enabled options, an empty
pattern tail, and the candidate segment `x`. -/
theorem c5_witness :
    (⟨false, false⟩ : MatchOptions).noglobstar = false ∧
    (patternWalk ⟨false, false⟩ (Seg.globstar :: []) ("x" :: []) =
        segMatch ⟨false, false⟩ Seg.globstar "x" ∧
      segMatch ⟨false, false⟩ Seg.globstar ".." = false ∧
      segMatch ⟨false, false⟩ Seg.globstar ".a" = false ∧
      getPartialMatcherModel [[Seg.globstar, Seg.lit "b"]] ⟨false, false⟩
        "../a" = false) :=
  ⟨rfl, c5_globstar_requires_segment_match ⟨false, false⟩ [] "x" [] rfl⟩

/-- C6 (confirmed): for every pattern set and every options bag, a
candidate path consisting solely of `..` segments (`..`, `../..`, ...) is
accepted by the partial matcher, so parent-directory paths are never
pruned (src/utils.ts lines 33-39). -/
theorem c6_parent_chains_always_pass (pats : List (List Seg))
    (o : MatchOptions) (n : Nat) :
    getPartialMatcherModel pats o (parentChain n) = true := by
  have hdata : (parentChain n).data = parentChainChars n := rfl
  have hsplit : splitPath (parentChain n)
      = List.replicate (n + 1) (⟨['.', '.']⟩ : String) := by
    unfold splitPath
    rw [hdata, splitOnSlash_parentChain, List.map_replicate]
  have hdot : (⟨['.', '.']⟩ : String) = ".." := by decide
  have hhead : (splitPath (parentChain n)).headD "" = ".." := by
    rw [hsplit, hdot]
    simp [List.replicate_succ]
  have hne : parentChain n ≠ "" := by
    intro habs
    have : parentChainChars n = [] := congrArg String.data habs
    cases n <;> simp [parentChainChars] at this
  have hopd : onlyParentDirectories (parentChain n) = true := by
    unfold onlyParentDirectories
    rw [Bool.and_eq_true]
    exact ⟨by simp [hne], hdata ▸ opdBlocks_parentChain n⟩
  unfold getPartialMatcherModel
  simp [hopd]
  exact Or.inl (by simpa using hhead)

/-- C1 as stated is refuted: with the single match pattern `**/.a/b` and
dot matching disabled, the full matcher (ignore list empty) accepts the
path `.a/b` (the globstar matches zero segments, the literal `.a` spells
its dot), yet the proper prefix `.a` fails the partial matcher because the
compiled `**` segment matcher rejects `.a`; the subtree `.a` holding a
real match is pruned. -/
theorem c1_counterexample :
    fullMatcherModel [[Seg.globstar, Seg.lit ".a", Seg.lit "b"]] []
        ⟨false, false⟩ ".a/b" = true ∧
    splitPath ".a/b" = [".a", "b"] ∧
    joinSegs ((splitPath ".a/b").take 1) = ".a" ∧
    1 < (splitPath ".a/b").length ∧
    getPartialMatcherModel [[Seg.globstar, Seg.lit ".a", Seg.lit "b"]]
        ⟨false, false⟩ ".a" = false :=
  ⟨by decide, by decide, by decide, by decide, by decide⟩

/-- C1 (corrected): pruning is sound for every path all of whose segments
are themselves accepted by the compiled `**` segment matcher under the
active options (no empty, `.` or `..` segments, and no leading-dot
segments unless dot is enabled): if the full matcher built from the match
patterns with the ignore patterns as exclusions accepts `p`, then every
proper prefix of `p` (split on `/`) satisfies the partial matcher. -/
theorem c1_pruning_sound_amended (mats igns : List (List Seg))
    (o : MatchOptions) (p : String) (k : Nat)
    (hseg : ∀ s ∈ splitPath p, segMatch o .globstar s = true)
    (hfull : fullMatcherModel mats igns o p = true)
    (hk : k + 1 < (splitPath p).length) :
    getPartialMatcherModel mats o (joinSegs ((splitPath p).take (k + 1)))
      = true := by
  unfold fullMatcherModel at hfull
  rw [Bool.and_eq_true] at hfull
  obtain ⟨hany, _⟩ := hfull
  rw [List.any_eq_true] at hany
  obtain ⟨pat, hmem, hglob⟩ := hany
  have hlne : splitPath p ≠ [] := by
    intro habs
    rw [habs] at hk
    simp at hk
  have hqne : (splitPath p).take (k + 1) ≠ [] := by
    intro habs
    rcases List.take_eq_nil_iff.mp habs with h | h
    · exact Nat.succ_ne_zero k h
    · exact hlne h
  have hqns : ∀ seg ∈ (splitPath p).take (k + 1), '/' ∉ seg.data :=
    fun seg hs => splitPath_no_slash p seg (List.take_subset _ _ hs)
  have hsplitq : splitPath (joinSegs ((splitPath p).take (k + 1)))
      = (splitPath p).take (k + 1) :=
    splitPath_joinSegs _ hqns hqne
  unfold getPartialMatcherModel
  simp only [hsplitq]
  split
  · rfl
  · rw [List.any_eq_true]
    exact ⟨pat, hmem, patternWalk_sound o pat (splitPath p) (k + 1) hseg hglob⟩

/-- C1 witness: the amended soundness applied to the pattern `**/b`, the
path `a/b` and its proper prefix `a`. -/
theorem c1_amended_witness :
    (∀ s ∈ splitPath "a/b", segMatch ⟨false, false⟩ .globstar s = true) ∧
    fullMatcherModel [[Seg.globstar, Seg.lit "b"]] [] ⟨false, false⟩ "a/b"
      = true ∧
    0 + 1 < (splitPath "a/b").length ∧
    getPartialMatcherModel [[Seg.globstar, Seg.lit "b"]] ⟨false, false⟩
      (joinSegs ((splitPath "a/b").take (0 + 1))) = true :=
  ⟨by decide, by decide, by decide,
    c1_pruning_sound_amended [[Seg.globstar, Seg.lit "b"]] [] ⟨false, false⟩
      "a/b" 0 (by decide) (by decide) (by decide)⟩

/-- C2 (code_bug): evaluating the current `normalizePattern` fold on the
patterns `a/x`, `a/y` (cwd `/w`, no directory expansion): the shipped loop
(src/patterns.ts lines 50-64, embedded as `newCommonPathCurrent`) leaves
`commonPath = []`, `depthOffset = 0` and `root = cwd`, while the same loop
as shipped in src/index.ts lines 179-195 (with `newCommonPath.push(part)`,
embedded as `newCommonPathIndexTs`) computes the shared literal prefix
`["a"]` for both folding steps, as the claim requires. -/
theorem c2_common_path_inference_dead :
    (processPatternsModel "/w" false [] ["a/x", "a/y"] (initialProps "/w")).2
      = { root := "/w", commonPath := some [], depthOffset := 0 } ∧
    newCommonPathCurrent ["a", "x"] ["a", "x"] = [] ∧
    newCommonPathIndexTs ["a", "x"] ["a", "x"] = ["a"] ∧
    newCommonPathIndexTs ["a"] ["a", "y"] = ["a"] :=
  ⟨by decide, by decide, by decide, by decide⟩

/-- C3 as stated is refuted: in relative output mode with the inferred
root equal to the cwd, no relative mapper is applied (src/crawler.ts line
100), so the directory path `a/` handed back by the walker (fdir emits
directory entries with a trailing separator; compare the repository's own
test expecting `['a/']`) is returned ending in `/`. -/
theorem c3_counterexample :
    relativeMapperModel "/c" "/c" false = none ∧
    formatPathsModel ["a/"] (relativeMapperModel "/c" "/c" false) = ["a/"] ∧
    endsSlash "a/" = true ∧ ("a/" : String) ≠ "." :=
  ⟨rfl, rfl, by decide, by decide⟩

/-- C3 (corrected): in relative output mode a returned directory path
keeps its trailing `/` — the identity mapper and both branches of
`buildRelative` preserve it — except when the result collapses to the
exact root marker `.`. -/
theorem c3_trailing_slash_amended (cwd root p : String)
    (h : endsSlash p = true) :
    endsSlash (applyMapper (relativeMapperModel cwd root false) p) = true ∨
    applyMapper (relativeMapperModel cwd root false) p = "." := by
  have hpne : p.data ≠ [] := by
    intro habs
    unfold endsSlash at h
    rw [habs] at h
    simp at h
  unfold relativeMapperModel
  split
  · -- mapper selected: buildRelative
    simp only [applyMapper]
    unfold buildRelativeModel
    split
    · -- root under cwd: prefix ++ "/" ++ p
      left
      unfold endsSlash at h ⊢
      rw [show (jsSliceFrom root (jsLength cwd + 1) ++ "/" ++ p).data
          = (jsSliceFrom root (jsLength cwd + 1) ++ "/").data ++ p.data from
        String.data_append _ _]
      rw [List.getLast?_append_of_ne_nil _ hpne]
      exact h
    · -- general branch via posix.relative
      by_cases hr : posixRelative cwd (root ++ "/" ++ p) = ""
      · right
        simp [h, hr]
      · left
        simp only [h, hr, ne_eq, not_false_iff, and_true, if_pos, true_and]
        unfold endsSlash
        rw [String.data_append]
        rw [List.getLast?_append_of_ne_nil _ (by simp : ("/" : String).data ≠ [])]
        rfl
  · -- no mapper: walker path returned as-is
    left
    simpa [applyMapper] using h

/-- C3 witness: the amended theorem applied at cwd `/c`, root `/c/s` and
the walker directory path `a/`. -/
theorem c3_amended_witness :
    endsSlash "a/" = true ∧
    (endsSlash (applyMapper (relativeMapperModel "/c" "/c/s" false) "a/")
        = true ∨
      applyMapper (relativeMapperModel "/c" "/c/s" false) "a/" = ".") :=
  ⟨by decide, c3_trailing_slash_amended "/c" "/c/s" "a/" (by decide)⟩

/-- C4 as stated is refuted: the pattern `!!a` (double negation, no
extglob opener) is dropped by `processPatterns` — it reaches neither the
match list nor the ignore list — rather than being treated as a literal
match pattern starting with `!`. -/
theorem c4_counterexample :
    (processPatternsModel "/w" false [] ["!!a"] (initialProps "/w")).1
      = ⟨[], []⟩ ∧
    routeOf "!!a" = .dropped :=
  ⟨by decide, by decide⟩

/-- C4 (corrected): the match-pattern loop routes every entry by the rule:
empty entries are skipped; an entry not starting with `!` (or starting
with `!(`) is normalized as a match pattern; `!p` with `p` not starting
with `!` (or with `!(` after the first `!`) is normalized with the leading
`!` removed and appended to the ignore list; a double-negated `!!p` with
`p` not starting with `(` is dropped entirely. -/
theorem c4_negation_routing_amended (cwd : String) (exp : Bool) :
    ∀ (ps : List String) (props : InternalProps),
    processMatchLoop cwd exp ps props = routedProcessLoop cwd exp ps props := by
  intro ps
  induction ps with
  | nil => intro props; rfl
  | cons p rest ih =>
    intro props
    by_cases h0 : p = ""
    · simp only [processMatchLoop, routedProcessLoop, routeOf, if_pos h0]
      exact ih props
    · by_cases h1 : jsCharAt p 0 ≠ some '!' ∨ jsCharAt p 1 = some '('
      · simp only [processMatchLoop, routedProcessLoop, routeOf,
          if_neg h0, if_pos h1]
        rw [ih]
      · by_cases h2 : jsCharAt p 1 ≠ some '!' ∨ jsCharAt p 2 = some '('
        · have h2' : ¬(jsCharAt p 1 = some '!' ∧ jsCharAt p 2 ≠ some '(') := by
            tauto
          simp only [processMatchLoop, routedProcessLoop, routeOf,
            if_neg h0, if_neg h1, if_pos h2, if_neg h2']
          rw [ih]
        · have h2' : jsCharAt p 1 = some '!' ∧ jsCharAt p 2 ≠ some '(' := by
            tauto
          simp only [processMatchLoop, routedProcessLoop, routeOf,
            if_neg h0, if_neg h1, if_neg h2, if_pos h2']
          exact ih props

theorem processMatchLoop_skip_empty (cwd : String) (exp : Bool)
    (post : List String) :
    ∀ (pre : List String) (props : InternalProps),
    processMatchLoop cwd exp (pre ++ "" :: post) props =
      processMatchLoop cwd exp (pre ++ post) props := by
  intro pre
  induction pre with
  | nil =>
    intro props
    simp [processMatchLoop]
  | cons q pre ih =>
    intro props
    by_cases h0 : q = ""
    · simp only [List.cons_append, processMatchLoop, if_pos h0]
      exact ih props
    · by_cases h1 : jsCharAt q 0 ≠ some '!' ∨ jsCharAt q 1 = some '('
      · simp only [List.cons_append, processMatchLoop, if_neg h0, if_pos h1,
            List.append_eq, ih]
      · by_cases h2 : jsCharAt q 1 ≠ some '!' ∨ jsCharAt q 2 = some '('
        · simp only [List.cons_append, processMatchLoop, if_neg h0, if_neg h1,
            if_pos h2, List.append_eq, ih]
        · simp only [List.cons_append, processMatchLoop, if_neg h0, if_neg h1,
            if_neg h2]
          exact ih props

theorem processIgnoreLoop_skip_empty (cwd : String) (exp : Bool)
    (post : List String) :
    ∀ (pre : List String) (props : InternalProps),
    processIgnoreLoop cwd exp (pre ++ "" :: post) props =
      processIgnoreLoop cwd exp (pre ++ post) props := by
  intro pre
  induction pre with
  | nil =>
    intro props
    have hguard : ¬(("" : String) ≠ "" ∧
        (jsCharAt "" 0 ≠ some '!' ∨ jsCharAt "" 1 = some '(')) := by
      simp
    simp only [List.nil_append, processIgnoreLoop, if_neg hguard]
  | cons q pre ih =>
    intro props
    by_cases h0 : q ≠ "" ∧ (jsCharAt q 0 ≠ some '!' ∨ jsCharAt q 1 = some '(')
    · simp only [List.cons_append, processIgnoreLoop, if_pos h0,
        List.append_eq, ih]
    · simp only [List.cons_append, processIgnoreLoop, if_neg h0]
      exact ih props

/-- C9 (confirmed): an empty-string entry in either the patterns list or
the ignore list is silently skipped: deleting it from the list leaves the
produced match list, ignore list and the final root/commonPath/depthOffset
(and hence everything derived from them) unchanged. -/
theorem c9_empty_strings_skipped (cwd : String) (exp : Bool)
    (ig pats : List String) (props : InternalProps)
    (pre post preI postI : List String) :
    processPatternsModel cwd exp ig (pre ++ "" :: post) props =
      processPatternsModel cwd exp ig (pre ++ post) props ∧
    processPatternsModel cwd exp (preI ++ "" :: postI) pats props =
      processPatternsModel cwd exp (preI ++ postI) pats props := by
  constructor
  · unfold processPatternsModel
    simp only [processMatchLoop_skip_empty]
  · unfold processPatternsModel
    simp only [processIgnoreLoop_skip_empty]

/-- C7 (confirmed): whenever the caller supplies a depth limit (including
`deep = 0`; the source checks `options.deep !== undefined`), the walker's
`maxDepth` equals `Math.round(deep - depthOffset)` where `depthOffset` is
the final value accumulated by pattern normalization. -/
theorem c7_deep_translation (o : PlanOptions) (pats : List String) (d : ℚ)
    (h : o.deep = some d) :
    (buildCrawlerPlan o pats).maxDepth =
      some (mathRound (d - ((processPatternsModel o.cwd o.expandDirectories
        o.ignore pats (initialProps o.cwd)).2.depthOffset : ℚ))) := by
  simp [buildCrawlerPlan, h]

/-- C7 witness: the theorem applied with `deep = 0` and the pattern
`a/x`. -/
theorem c7_witness :
    (⟨"/w", true, [], some 0, false, false⟩ : PlanOptions).deep = some 0 ∧
    (buildCrawlerPlan ⟨"/w", true, [], some 0, false, false⟩ ["a/x"]).maxDepth =
      some (mathRound ((0 : ℚ) - ((processPatternsModel "/w" true [] ["a/x"]
        (initialProps "/w")).2.depthOffset : ℚ))) :=
  ⟨rfl, c7_deep_translation ⟨"/w", true, [], some 0, false, false⟩ ["a/x"] 0 rfl⟩

/-- C8 as stated is refuted: calling with the positional pattern `''` (a
supplied, but falsy, pattern source) together with `patterns: ['x']` in the
options does not raise the configuration error; the guard
`patternsOrOptions && options?.patterns` passes it by and the call silently
proceeds with the positional source (the pattern list `['']`). -/
theorem c8_counterexample :
    getCrawlerModel "/w" (.pats (.str ""))
        (some { emptyGlobOptions with patterns := some (.arr ["x"]) }) =
      .ok (.plan ⟨"/w", [], [], none⟩ [""]) := rfl

/-- C8 (corrected): whenever both pattern sources are truthy (positional:
a non-empty string or any array, options: likewise), the call fails
immediately with the configuration error before any pattern processing;
only an empty-string source escapes the truthiness guard, in which case
the positional source silently wins. -/
theorem c8_conflicting_sources_amended (procCwd : String) (gi : GlobInput)
    (io : GlobOptionsIn) (h1 : globInputTruthy gi = true)
    (h2 : optPatternsTruthy io.patterns = true) :
    getCrawlerModel procCwd gi (some io) =
      .error "Cannot pass patterns as both an argument and an option" := by
  unfold getCrawlerModel
  rw [if_pos]
  constructor
  · exact h1
  · simpa using h2

/-- C8 witness: the amended theorem applied to the positional patterns
`['a']` and the options patterns `'b'`. -/
theorem c8_amended_witness :
    globInputTruthy (.pats (.arr ["a"])) = true ∧
    optPatternsTruthy ({ emptyGlobOptions with patterns := some (.str "b") }
      : GlobOptionsIn).patterns = true ∧
    getCrawlerModel "/w" (.pats (.arr ["a"]))
        (some { emptyGlobOptions with patterns := some (.str "b") }) =
      .error "Cannot pass patterns as both an argument and an option" :=
  ⟨by decide, by decide,
    c8_conflicting_sources_amended "/w" (.pats (.arr ["a"]))
      { emptyGlobOptions with patterns := some (.str "b") }
      (by decide) (by decide)⟩

/-- C10 (confirmed): a call with no patterns at all (legacy options object
whose `patterns` field is absent) is not an error and behaves exactly as if
the single pattern `**/*` had been supplied — the built crawler and pattern
list coincide — whereas an explicitly empty patterns array (positional or
in options) returns the empty result without building any crawler. -/
theorem c10_no_patterns_default (procCwd : String) (o o2 : GlobOptionsIn)
    (h : o.patterns = none) (h2 : o2.patterns = some (.arr [])) :
    getCrawlerModel procCwd (.opts o) none =
      getCrawlerModel procCwd
        (.opts { o with patterns := some (.str "**/*") }) none ∧
    (∃ pl, getCrawlerModel procCwd (.opts o) none
        = .ok (.plan pl ["**/*"])) ∧
    getCrawlerModel procCwd (.opts o2) none = .ok .empty ∧
    getCrawlerModel procCwd (.pats (.arr [])) none = .ok .empty := by
  refine ⟨?_, ?_, ?_, ?_⟩
  · simp [getCrawlerModel, h, getOptionsModel, ensureStringArray,
      optPatternsTruthy, globInputTruthy]
  · refine ⟨buildCrawlerPlan (getOptionsModel procCwd o) ["**/*"], ?_⟩
    simp [getCrawlerModel, h, ensureStringArray, optPatternsTruthy,
      globInputTruthy]
  · simp [getCrawlerModel, h2, ensureStringArray, optPatternsTruthy,
      globInputTruthy]
  · rfl

/-- C10 witness: the theorem applied to the empty options record and to an
explicit empty patterns array. -/
theorem c10_witness :
    emptyGlobOptions.patterns = none ∧
    ({ emptyGlobOptions with patterns := some (.arr []) }
      : GlobOptionsIn).patterns = some (.arr []) ∧
    (getCrawlerModel "/w" (.opts emptyGlobOptions) none =
      getCrawlerModel "/w"
        (.opts { emptyGlobOptions with patterns := some (.str "**/*") }) none ∧
    (∃ pl, getCrawlerModel "/w" (.opts emptyGlobOptions) none
        = .ok (.plan pl ["**/*"])) ∧
    getCrawlerModel "/w"
        (.opts { emptyGlobOptions with patterns := some (.arr []) }) none
      = .ok .empty ∧
    getCrawlerModel "/w" (.pats (.arr [])) none = .ok .empty) :=
  ⟨rfl, rfl,
    c10_no_patterns_default "/w" emptyGlobOptions
      { emptyGlobOptions with patterns := some (.arr []) } rfl rfl⟩
